import Mathlib

/-!
Verification development for the TeamAquarius_HackRx RAG pipeline.
The Python sources under study are embedded shallowly: pure string
manipulation is translated to Lean functions over `List Char` / `String`,
calls to external LLM / HTTP backends are abstracted as explicit
parameters (an `Except Unit _` value models one backend call that either
returns a payload or raises), and `try/except` blocks become case splits
on those parameters.  Machine integers do not occur (all Python ints here
are small non-negative counts), so `Nat`/`Int` are used directly.
-/

namespace HackRx

/-! ## Python string primitives

Faithful models of the Python `str` operations used by the repository:
`lower`, `upper`, `strip`, `split` (with and without separator),
substring containment (`in`), `startswith`, and `replace`.
All operate on `List Char`; inputs in this development are ASCII apart
from the bullet characters in the chunker's separator list.
-/

/-- Whitespace characters stripped by Python `str.strip()` / split by `str.split()`. -/
def pyWsChars : List Char := [' ', '\t', '\n', '\r', '\x0b', '\x0c']

def isPyWs (c : Char) : Bool := pyWsChars.contains c

/-- Model of Python `str.lower` on ASCII characters. -/
def lowerChar (c : Char) : Char :=
  if 'A' ≤ c ∧ c ≤ 'Z' then Char.ofNat (c.toNat + 32) else c

/-- Model of Python `str.upper` on ASCII characters. -/
def upperChar (c : Char) : Char :=
  if 'a' ≤ c ∧ c ≤ 'z' then Char.ofNat (c.toNat - 32) else c

def lowerL (s : List Char) : List Char := s.map lowerChar

def upperL (s : List Char) : List Char := s.map upperChar

/-- Python `str.strip()`: drop leading and trailing whitespace. -/
def pyStripL (s : List Char) : List Char :=
  ((s.dropWhile isPyWs).reverse.dropWhile isPyWs).reverse

/-- `leadsL pat s` models Python `s.startswith(pat)`. -/
def leadsL : List Char → List Char → Bool
  | [], _ => true
  | _ :: _, [] => false
  | p :: ps, c :: cs => p == c && leadsL ps cs

/-- `subOccursL pat s` models Python `pat in s` (substring containment). -/
def subOccursL (pat : List Char) : List Char → Bool
  | [] => pat.isEmpty
  | c :: rest => leadsL pat (c :: rest) || subOccursL pat rest

/-- Python `s.split(sep)` for a non-empty literal separator `sep`.
The recursion consumes at least one character per step, so it is made
structural on a fuel argument initialised to the string length (the bound
is never reached; fuel only makes kernel evaluation possible). -/
def splitSepGo (sep : List Char) : Nat → List Char → List (List Char)
  | _, [] => [[]]
  | 0, s => [s]
  | fuel + 1, c :: rest =>
    if sep ≠ [] ∧ leadsL sep (c :: rest) then
      [] :: splitSepGo sep fuel ((c :: rest).drop sep.length)
    else
      match splitSepGo sep fuel rest with
      | [] => [[c]]
      | g :: gs => (c :: g) :: gs

def splitSepL (sep s : List Char) : List (List Char) := splitSepGo sep s.length s

/-- Python `s.split()` (no argument): split on runs of whitespace, no empty
parts.  Fuel-structural, fuel initialised to the string length. -/
def splitWsFuel : Nat → List Char → List (List Char)
  | _, [] => []
  | 0, s => [s]
  | fuel + 1, c :: rest =>
    if isPyWs c then splitWsFuel fuel rest
    else (c :: rest.takeWhile (fun d => ¬ isPyWs d)) ::
         splitWsFuel fuel (rest.dropWhile (fun d => ¬ isPyWs d))

def splitWsGo (s : List Char) : List (List Char) := splitWsFuel s.length s

/-- Python `s.replace(pat, rep)` for a non-empty `pat` (all patterns in this
repository are non-empty).  Fuel-structural, fuel initialised to the string
length. -/
def replaceFuel (pat rep : List Char) : Nat → List Char → List Char
  | _, [] => []
  | 0, s => s
  | fuel + 1, c :: rest =>
    if pat ≠ [] ∧ leadsL pat (c :: rest) then
      rep ++ replaceFuel pat rep fuel ((c :: rest).drop pat.length)
    else
      c :: replaceFuel pat rep fuel rest

def replaceL (pat rep s : List Char) : List Char := replaceFuel pat rep s.length s

/-- Suffix of `s` after the first occurrence of `sep`; models `s.split(sep, 1)[1]`
when `sep` occurs in `s`. -/
def afterFirstSub (sep : List Char) : List Char → List Char
  | [] => []
  | c :: rest =>
    if leadsL sep (c :: rest) then (c :: rest).drop sep.length
    else afterFirstSub sep rest

/-- String-level wrappers. -/
def pyLowerS (s : String) : String := (lowerL s.toList).asString

def pyStripS (s : String) : String := (pyStripL s.toList).asString

def subOccursS (pat s : String) : Bool := subOccursL pat.toList s.toList

def splitWsS (s : String) : List String := (splitWsGo s.toList).map List.asString

/-! ## Token usage records

Model of the OpenAI usage object as consumed by this repository
(only `total_tokens` is ever read). -/

structure Usage where
  total_tokens : Nat
deriving DecidableEq

/-- Python `float()` on plain decimal literals (optionally signed, optional
fractional part); `none` models `ValueError`.  Exponent/inf/nan forms never
arise from the validator's `CONFIDENCE: 0.X` format and are mapped to `none`. -/
def pyFloat (s : List Char) : Option Rat :=
  let t := pyStripL s
  let sgnt : Rat × List Char :=
    match t with
    | '-' :: r => (-1, r)
    | '+' :: r => (1, r)
    | _ => (1, t)
  let sgn := sgnt.1
  let t := sgnt.2
  let ip := t.takeWhile Char.isDigit
  let rest := t.dropWhile Char.isDigit
  let ipVal : Nat := ip.foldl (fun a c => a * 10 + (c.toNat - 48)) 0
  match rest with
  | [] => if ip = [] then none else some (sgn * (ipVal : Rat))
  | '.' :: fr =>
    if fr.all Char.isDigit ∧ (ip ≠ [] ∨ fr ≠ []) then
      let frVal : Nat := fr.foldl (fun a c => a * 10 + (c.toNat - 48)) 0
      some (sgn * ((ipVal : Rat) + (frVal : Rat) / ((10 : Rat) ^ fr.length)))
    else none
  | _ => none

/-! ## Answer validator (src/utils/answer_validator.py)

`validate_answer` calls an OpenAI chat completion with a validation prompt,
parses the `SUPPORTED:` / `CONFIDENCE:` / `REASONING:` / `CORRECTED_ANSWER:`
lines of the response, and decides validity.  The backend call is modelled
by an `Except Unit String` parameter: `.ok raw` is the response message
content, `.error ()` models the call raising (the function's outer
`try/except` then fail-opens).  The prompt construction only feeds the
backend and is not modelled.
-/

structure VParse where
  is_supported : Bool
  confidence : List Char
  reasoning : List Char
  corrected_answer : List Char

/-- One iteration of the parsing loop in `parse_validation_result`. -/
def parse_validation_line (st : VParse) (raw : List Char) : VParse :=
  let line := pyStripL raw
  if leadsL "SUPPORTED:".toList line then
    { st with is_supported := subOccursL "YES".toList (upperL line) }
  else if leadsL "CONFIDENCE:".toList line then
    { st with confidence := pyStripL ((splitSepL [':'] line).getD 1 []) }
  else if leadsL "REASONING:".toList line then
    { st with reasoning :=
        if subOccursL [':'] line then pyStripL (afterFirstSub [':'] line) else [] }
  else if leadsL "CORRECTED_ANSWER:".toList line then
    { st with corrected_answer :=
        if subOccursL [':'] line then pyStripL (afterFirstSub [':'] line) else [] }
  else st

/-- Model of `parse_validation_result`: split the response on newlines and fold
the line parser over it, starting from the defaults
`(False, "0.5", "", "")` used by the Python code. -/
def parse_validation_result (result : List Char) : VParse :=
  (splitSepL ['\n'] result).foldl parse_validation_line
    { is_supported := false
      confidence := "0.5".toList
      reasoning := []
      corrected_answer := [] }

/-- Model of `validate_answer(context, answer, question)`.

`backendResult` models the `validation_client.chat.completions.create` call:
`.error ()` is a raised exception, `.ok raw` the response content.  A failed
`float(confidence)` conversion (`pyFloat` = `none`) raises `ValueError`
inside the same `try`, so it also lands in the fail-open branch. -/
def validate_decision (p : VParse) (answer : String) : Bool × String :=
  match (if p.confidence ≠ [] then pyFloat p.confidence else some (1/2)) with
  | none => (true, answer)
  | some confidence_float =>
    if p.is_supported && decide ((6/10 : Rat) ≤ confidence_float) then (true, answer)
    else (false, if p.corrected_answer ≠ [] then p.corrected_answer.asString else answer)

def validate_answer (backendResult : Except Unit String)
    (_context answer _question : String) : Bool × String :=
  match backendResult with
  | .error _ => (true, answer)
  | .ok raw => validate_decision (parse_validation_result (pyStripL raw.toList)) answer

/-! ## LLM reranker (src/utils/llm_reranker.py)

`rerank_chunks` makes two backend calls (relevance scoring, confidence
scoring) and parses their responses as JSON.  Each call is modelled by an
`Except Unit (Option PyJson)` parameter: `.error ()` models the call
raising, `.ok none` a response whose content fails `json.loads`
(`JSONDecodeError`), and `.ok (some j)` a successfully parsed JSON value.
A parsed value that is not a list, or a list of the wrong length, takes the
code's explicit fallback; a list element that is not a number makes the
score arithmetic raise `TypeError`, which the outer `except` turns into the
same fallback. -/

inductive PyJson where
  | num (q : Rat)
  | str (s : String)
  | arr (l : List PyJson)
  | obj

def asNum : PyJson → Option Rat
  | .num q => some q
  | _ => none

def allNums (l : List PyJson) : Option (List Rat) := l.mapM asNum

/-- Insert into a descending-sorted list, before the first element with a
key `≤` the new key.  Together with `sortDesc` this models Python's stable
`list.sort(key=lambda x: x[0], reverse=True)`: among equal keys the
original (earlier-inserted) element stays first. -/
def insertDesc {κ : Type} [LinearOrder κ] (p : κ × String) :
    List (κ × String) → List (κ × String)
  | [] => [p]
  | q :: rest => if q.1 ≤ p.1 then p :: q :: rest else q :: insertDesc p rest

def sortDesc {κ : Type} [LinearOrder κ] : List (κ × String) → List (κ × String)
  | [] => []
  | p :: rest => insertDesc p (sortDesc rest)

/-- Model of `rerank_chunks(chunks, query, top_k)`.  The query only feeds the
prompts, which are not modelled. -/
def rerank_chunks (chunks : List String) (_query : String) (top_k : Nat)
    (relevanceCall confidenceCall : Except Unit (Option PyJson)) : List String :=
  if chunks.isEmpty then []
  else
    match relevanceCall with
    | .error _ => chunks.take top_k
    | .ok none => chunks.take top_k
    | .ok (some scoresJson) =>
      match scoresJson with
      | .arr scores =>
        if scores.length ≠ chunks.length then chunks.take top_k
        else
          match confidenceCall with
          | .error _ => chunks.take top_k
          | .ok none => chunks.take top_k
          | .ok (some confJson) =>
            let confidence_scores : List PyJson :=
              match confJson with
              | .arr cs =>
                if cs.length ≠ chunks.length then
                  List.replicate chunks.length (.num (7/10))
                else cs
              | _ => List.replicate chunks.length (.num (7/10))
            match allNums scores, allNums confidence_scores with
            | some rels, some confs =>
              let final_scores :=
                List.zipWith (fun r c => r * (7/10) + c * 10 * (3/10)) rels confs
              ((sortDesc (final_scores.zip chunks)).take top_k).map Prod.snd
            | _, _ => chunks.take top_k
      | _ => chunks.take top_k

/-- The failure condition of `rerank_chunks`'s scoring stage, case by case:
the relevance call raises; its response is not decodable JSON; it decodes
to a non-list, to a list of the wrong length, or to a list with a
non-numeric entry (whose score arithmetic raises `TypeError`, caught by
the outer `except`); or — with well-formed relevance scores — the
confidence call raises, is not decodable, or yields non-numeric entries.
A non-list or wrong-length *confidence* response is not a failure: the
code substitutes the default `0.7` confidences and proceeds. -/
def scoring_failed (numChunks : Nat)
    (relevanceCall confidenceCall : Except Unit (Option PyJson)) : Bool :=
  match relevanceCall with
  | .error _ => true
  | .ok none => true
  | .ok (some (.arr scores)) =>
    if scores.length ≠ numChunks then true
    else
      match allNums scores with
      | none => true
      | some _ =>
        match confidenceCall with
        | .error _ => true
        | .ok none => true
        | .ok (some confJson) =>
          match allNums (match confJson with
            | .arr cs =>
              if cs.length ≠ numChunks then
                List.replicate numChunks (.num (7/10))
              else cs
            | _ => List.replicate numChunks (.num (7/10))) with
          | none => true
          | some _ => false
  | .ok (some _) => true

/-! ### Keyword-overlap heuristic reranker (`rerank_chunks_simple`) -/

def insurance_keywords : List String :=
  ["coverage", "policy", "insured", "premium", "claim", "exclusion", "limit",
   "waiting", "period", "sum", "medical", "hospital", "treatment", "surgery",
   "disease", "condition", "benefit", "payment", "grace", "renewal", "bonus",
   "discount", "room", "icu", "charges", "percentage", "amount", "rupees",
   "lakhs", "thousand", "hundred", "days", "months", "years", "continuous",
   "clause", "section", "chapter", "part", "article", "provision", "term",
   "condition", "requirement", "eligibility", "qualification", "document",
   "certificate", "endorsement", "rider", "add-on", "optional", "mandatory",
   "insurance", "health", "medical", "surgical", "diagnostic", "therapeutic",
   "preventive", "curative", "palliative", "rehabilitative", "emergency"]

def top_insurance_keywords : List String :=
  ["coverage", "policy", "insured", "premium", "claim"]

def structural_keywords : List String := ["clause", "section", "chapter", "part"]

def question_types : List (String × List String) :=
  [("what", ["definition", "description", "explanation"]),
   ("how", ["process", "procedure", "method"]),
   ("when", ["timing", "schedule", "deadline"]),
   ("where", ["location", "place", "venue"]),
   ("who", ["person", "entity", "organization"]),
   ("why", ["reason", "cause", "purpose"]),
   ("which", ["choice", "option", "selection"]),
   ("does", ["coverage", "inclusion", "exclusion"]),
   ("will", ["future", "prediction", "outcome"]),
   ("can", ["possibility", "capability", "permission"])]

def scenario_indicators : List String :=
  ["my", "i", "am", "have", "bill", "cost", "payment", "co-payment",
   "deductible", "age", "years", "old", "condition", "treatment", "procedure",
   "hospitalization"]

def quantitative_indicators : List String :=
  ["amount", "limit", "maximum", "minimum", "percentage", "percent", "%",
   "rupees", "rs.", "lakh", "thousand", "hundred", "days", "months", "years",
   "how much", "what is the", "limit for", "maximum for"]

def scenario_rule_terms : List String :=
  ["rule", "condition", "apply", "based on", "subject to"]

def quant_amount_terms : List String :=
  ["rs.", "rupees", "lakh", "thousand", "percent", "%"]

def policy_terms : List String :=
  ["rs.", "rupees", "lakh", "thousand", "percent", "%", "days", "months",
   "years", "clause", "section"]

def bullet_chars : List Char := ['•', '▪', '▫', '○', '●']

def question_words : List String :=
  ["what", "how", "why", "when", "where", "who", "which", "does", "will",
   "can", "is", "are"]

/-- First word of the query (in order) that is a `question_types` key. -/
def firstQuestionType : List String → Option (List String)
  | [] => none
  | w :: rest =>
    match question_types.lookup w with
    | some ts => some ts
    | none => firstQuestionType rest

/-- The per-chunk score of `rerank_chunks_simple`, components numbered as the
ten scoring steps in the source. -/
def simpleChunkScore (query_words : List String)
    (question_type : Option (List String)) (is_scenario is_quant : Bool)
    (chunk : String) : Int :=
  let chunkLower := pyLowerS chunk
  let chunk_words := (splitWsS chunkLower).dedup
  let s1 : Int := 4 * ((query_words.filter (fun w => chunk_words.contains w)).length : Int)
  let s2 : Int := (chunk_words.map (fun kw =>
      if insurance_keywords.contains kw then
        if top_insurance_keywords.contains kw then (3 : Int)
        else if structural_keywords.contains kw then 2
        else 1
      else 0)).sum
  let s3 : Int :=
    match question_type with
    | some ts =>
      2 * (((((ts.map splitWsS).flatten).dedup).filter
            (fun w => chunk_words.contains w)).length : Int)
    | none => 0
  let s4 : Int :=
    if is_scenario then
      3 * ((scenario_indicators.filter (fun w => chunk_words.contains w)).length : Int)
      + (if scenario_rule_terms.any (fun t => subOccursS t chunkLower) then 4 else 0)
    else 0
  let s5 : Int :=
    if is_quant then
      (if chunk.toList.any Char.isDigit then (5 : Int) else 0)
      + (if quant_amount_terms.any (fun t => subOccursS t chunkLower) then 4 else 0)
    else 0
  let len := (splitWsS chunk).length
  let s6 : Int :=
    if 100 ≤ len ∧ len ≤ 400 then 5
    else if 50 ≤ len ∧ len ≤ 600 then 3
    else if len < 50 then -2
    else 0
  let s7 : Int := if chunk.toList.any Char.isDigit then 3 else 0
  let s8 : Int := if policy_terms.any (fun t => subOccursS t chunkLower) then 3 else 0
  let s9 : Int :=
    if chunk.toList.contains '|' ∨ chunk.toList.contains '-'
        ∨ bullet_chars.any (fun c => chunk.toList.contains c) then 2
    else 0
  let s10 : Int := if question_words.any (fun t => subOccursS t chunkLower) then 1 else 0
  s1 + s2 + s3 + s4 + s5 + s6 + s7 + s8 + s9 + s10

/-- Model of `rerank_chunks_simple(chunks, query, top_k)`: the deterministic
keyword-overlap scoring heuristic. -/
def rerank_chunks_simple (chunks : List String) (query : String) (top_k : Nat) :
    List String :=
  if chunks.isEmpty then []
  else
    let queryLower := pyLowerS query
    let query_words := (splitWsS queryLower).dedup
    let question_type := firstQuestionType (splitWsS queryLower)
    let is_scenario := scenario_indicators.any (fun ind => subOccursS ind queryLower)
    let is_quant := quantitative_indicators.any (fun ind => subOccursS ind queryLower)
    let scored := chunks.map (fun chunk =>
      (simpleChunkScore query_words question_type is_scenario is_quant chunk, chunk))
    ((sortDesc scored).take top_k).map Prod.snd

/-! ## Answer generation (src/utils/llm.py)

`get_llm_answer` wraps its whole specialized-generation body in
`try/except`; on any exception it delegates to `get_simple_llm_answer`,
whose own `try/except` returns a fixed apology string and `None` usage on
failure.  The successful specialized path (prompt selection, consistency
check, answer formatting) is abstracted as the `primary` outcome, and the
simple path's chat-completion call as `simpleCall` applied to the truncated
context and the question; `.error ()` models the call raising. -/

def llm_error_fallback_message : String :=
  "I apologize, but I encountered an error while processing your question. Please try again."

/-- Model of `get_simple_llm_answer(context, question)`. -/
def get_simple_llm_answer (simpleCall : String → String → Except Unit (String × Usage))
    (context question : String) : String × Option Usage :=
  match simpleCall (context.take 2000) question with
  | .ok (content, usage) => (pyStripS content, some usage)
  | .error _ => (llm_error_fallback_message, none)

/-- Model of `get_llm_answer(context, question)`. -/
def get_llm_answer (primary : Except Unit (String × Usage))
    (simpleCall : String → String → Except Unit (String × Usage))
    (context question : String) : String × Option Usage :=
  match primary with
  | .ok (answer, usage) => (answer, some usage)
  | .error _ => get_simple_llm_answer simpleCall context question

/-! ## Query orchestration (src/services/query_engine.py)

`process_query`'s per-question pipeline (`get_answer_with_optimizations`)
is embedded with its network-dependent stages as parameters: `ctxOf`
models retrieval + reranking + context joining (question ↦ context
string), `gen` models `get_llm_answer` (context, question ↦ answer,
usage), and `validateF` models `validate_answer` (context, generated
answer, question ↦ is_valid, validated answer).  `asyncio.gather`
returns results in task-submission order, so both the concurrent path
(≤ 3 questions) and the batch-of-2 path are list maps; the batch loop
`for i in range(0, n, 2): batch = questions[i:i+2]` is `batches2`. -/

def usage_tokens : Option Usage → Nat
  | some u => u.total_tokens
  | none => 0

/-- Model of `sum(res[1].total_tokens for res in results if res[1] is not None)`. -/
def total_tokens_sum (results : List (String × Option Usage)) : Nat :=
  results.foldl (fun acc r => acc + usage_tokens r.2) 0

/-- Model of the inner `get_answer_with_optimizations(question)` closure:
validation runs only when `use_validation` is set and the request has at
most 2 questions; when the validator judges the answer invalid the
validated answer is returned, otherwise the generated answer. -/
def get_answer_with_optimizations (use_validation : Bool) (numQuestions : Nat)
    (ctxOf : String → String)
    (gen : String → String → String × Option Usage)
    (validateF : String → String → String → Bool × String)
    (question : String) : String × Option Usage :=
  let context := ctxOf question
  if use_validation ∧ numQuestions ≤ 2 then
    let r := gen context question
    let v := validateF context r.1 question
    if ¬ v.1 then (v.2, r.2) else (r.1, r.2)
  else
    gen context question

/-- The batch slicing `questions[i:i+2]` for `i in range(0, n, 2)`. -/
def batches2 {α : Type} : List α → List (List α)
  | [] => []
  | [a] => [[a]]
  | a :: b :: rest => [a, b] :: batches2 rest

/-- Model of `process_query(payload, ...)`'s question-processing half:
returns the final answers (input order) and the summed token usage.
The document fetch/chunk/index stage is modelled separately
(see `process_document`). -/
def process_query (questions : List String) (use_validation : Bool)
    (ctxOf : String → String)
    (gen : String → String → String × Option Usage)
    (validateF : String → String → String → Bool × String) :
    List String × Nat :=
  let f := get_answer_with_optimizations use_validation questions.length ctxOf gen validateF
  let results :=
    if questions.length ≤ 3 then questions.map f
    else ((batches2 questions).map (fun batch => batch.map f)).flatten
  (results.map Prod.fst, total_tokens_sum results)

/-! ## Request schema (src/schemas/request.py)

`HackRxRequest` declares `documents: HttpUrl` and `questions: list[str]`
with no length constraint on `questions`.  Pydantic's `HttpUrl` parse is
modelled minimally (an `http://` or `https://` scheme followed by a
non-empty remainder); the `questions` field is accepted as-is, exactly as
the source model does. -/

structure HackRxRequest where
  documents : String
  questions : List String
deriving DecidableEq

/-- Minimal model of pydantic `HttpUrl` well-formedness. -/
def is_http_url (s : String) : Bool :=
  (leadsL "http://".toList s.toList ∧ 7 < s.length)
  ∨ (leadsL "https://".toList s.toList ∧ 8 < s.length)

/-- Model of pydantic validation of the `/hackrx/run` request body. -/
def validate_hackrx_request (documents : String) (questions : List String) :
    Except String HackRxRequest :=
  if is_http_url documents then .ok ⟨documents, questions⟩
  else .error "value is not a valid URL"

/-! ### Helper lemmas for the orchestrator -/

/-! ## Document cache (src/services/query_engine.py, src/core/cache.py)

`query_engine.py` declares its own module-level `document_cache = {}` —
a plain dict — and `process_query` consults it by the MD5 hex digest of
the document URL.  The `TTLCache(maxsize=100, ttl=3600)` defined in
`core/cache.py` is *not* imported by `query_engine.py`; its `ttl`
constant is recorded here for reference.  The cache interaction of
`process_query`'s document stage is modelled as a state transformer:
`keyOf` models `get_cache_key` (hashlib.md5 hexdigest), `fetchOf` models
`get_document_text` + `get_text_chunks` + `get_vector_store` producing an
abstract processed-document value, and `fetch_count` is the call-count
spy of the spec's test.  The current time `now` is a parameter so that
TTL-sensitivity is expressible: the dict lookup ignores it, exactly as
the source does. -/

def core_cache_ttl_seconds : Nat := 3600

structure DocCacheState where
  cache : List (String × Nat)
  fetch_count : Nat
deriving DecidableEq

/-- Model of the document-processing stage of `process_query`: look the URL's
key up in `document_cache`; on a miss, fetch/chunk/index the document,
store it, and count the Fetcher/Indexer invocation. -/
def process_document (keyOf : String → String) (fetchOf : String → Nat)
    (st : DocCacheState) (url : String) (_now : Nat) : DocCacheState × Nat :=
  let cache_key := keyOf url
  match st.cache.lookup cache_key with
  | some doc => (st, doc)
  | none =>
    let doc := fetchOf url
    ({ cache := (cache_key, doc) :: st.cache, fetch_count := st.fetch_count + 1 }, doc)

/-- Model of the whole `process_query(payload, ...)` call on one request:
the document stage (cache lookup, else fetch + chunk + index) runs first,
unconditionally — also for a request with zero questions — and then the
per-question fan-out.  Returns the updated cache state together with the
answers and summed token usage.  The processed document feeds retrieval,
which is already abstracted into `ctxOf` in `process_query`. -/
def process_query_full (keyOf : String → String) (fetchOf : String → Nat)
    (st : DocCacheState) (req : HackRxRequest) (now : Nat)
    (use_validation : Bool) (ctxOf : String → String)
    (gen : String → String → String × Option Usage)
    (validateF : String → String → String → Bool × String) :
    DocCacheState × (List String × Nat) :=
  let sd := process_document keyOf fetchOf st req.documents now
  (sd.1, process_query req.questions use_validation ctxOf gen validateF)

/-! ## Chunking (src/utils/chunking.py)

`get_text_chunks` returns `[text]` for texts under 1000 characters;
otherwise it extracts policy clauses by regex, splits the remaining text
with langchain's `RecursiveCharacterTextSplitter(chunk_size=800,
chunk_overlap=150, separators=..., is_separator_regex=False)` (which
defaults to `keep_separator=True`), filters chunks whose stripped length
is below 50, deduplicates by `hash(chunk.lower())`, and truncates to 80
chunks.  The splitter and the regex `findall` are embedded below from
their library semantics, since the chunk list is entirely determined by
them. -/

/-- Case-insensitive `startswith`, for the `re.IGNORECASE` clause patterns. -/
def ciLeads : List Char → List Char → Bool
  | [], _ => true
  | _ :: _, [] => false
  | p :: ps, c :: cs => lowerChar p == lowerChar c && ciLeads ps cs

/-- `re.findall(lit + "[^.]*\\.", text, re.IGNORECASE | re.DOTALL)` for a
literal `lit` containing no dot: scanning left to right, each match runs
from a case-insensitive occurrence of `lit` to the first following `'.'`
(inclusive); scanning resumes after the match.  An occurrence with no
following dot matches nothing (and no dot exists further right either).
Fuel-structural; fuel starts at the text length, which bounds the scan. -/
def findClauseMatchesGo (lit : List Char) : Nat → List Char → List (List Char)
  | 0, _ => []
  | _, [] => []
  | fuel + 1, c :: rest =>
    if ciLeads lit (c :: rest) then
      let after := (c :: rest).drop lit.length
      let body := after.takeWhile (fun d => d ≠ '.')
      match after.dropWhile (fun d => d ≠ '.') with
      | [] => []
      | _ :: tail =>
        ((c :: rest).take lit.length ++ body ++ ['.']) ::
          findClauseMatchesGo lit fuel tail
    else findClauseMatchesGo lit fuel rest

def findClauseMatches (lit s : List Char) : List (List Char) :=
  findClauseMatchesGo lit s.length s

/-- The literal heads of the 15 `clause_patterns` regexes. -/
def clause_pattern_lits : List (List Char) :=
  ["Multiple Policies", "Contribution", "Other Insurance", "Policy Coordination",
   "Claim Settlement", "Coverage", "Exclusions", "Waiting Period", "Sum Insured",
   "Co-payment", "Deductible", "Pre-existing", "Hospitalization",
   "Pre-hospitalization", "Post-hospitalization"].map String.toList

/-- Model of `extract_policy_clauses(text)`: per pattern, collect stripped
matches longer than 50 characters. -/
def extract_policy_clauses (text : List Char) : List (List Char) :=
  clause_pattern_lits.flatMap (fun lit =>
    (findClauseMatches lit text).filterMap (fun m =>
      let ms := pyStripL m
      if 50 < ms.length then some ms else none))

/-! ### RecursiveCharacterTextSplitter (langchain), embedded from its
semantics at `keep_separator=True`, `is_separator_regex=False`,
`strip_whitespace=True`. -/

/-- `_split_text_with_regex(text, re.escape(sep), keep_separator=True)`:
split on the literal separator, reattach each separator to the part that
follows it, and drop empty parts. -/
def splitKeepSep (sep text : List Char) : List (List Char) :=
  match splitSepL sep text with
  | [] => []
  | p0 :: rest => (p0 :: rest.map (fun p => sep ++ p)).filter (fun p => p ≠ [])

/-- `_join_docs(docs, separator)`: join, strip, return `None` if empty. -/
def joinDocs (sep : List Char) (docs : List (List Char)) : Option (List Char) :=
  let text := pyStripL (List.intercalate sep docs)
  if text = [] then none else some text

/-- The inner `while` loop of `_merge_splits` that pops leading docs until
the running total fits within the overlap / chunk size.  `current_doc` is
non-empty on entry (guarded in `_merge_splits`); popping from an empty
list with the condition still true cannot occur because the total is then
zero. -/
def popOverlap (cs co sepLen dLen : Int) :
    List (List Char) → Int → List (List Char) × Int
  | [], total => ([], total)
  | d0 :: rest, total =>
    if total > co ∨ (total + dLen + sepLen > cs ∧ total > 0) then
      popOverlap cs co sepLen dLen rest
        (total - ((d0.length : Int) + (if rest ≠ [] then sepLen else 0)))
    else (d0 :: rest, total)

/-- One iteration of the `for d in splits` loop of `_merge_splits`;
state is `(docs, current_doc, total)`. -/
def mergeStep (cs co sepLen : Int) (sep : List Char)
    (st : List (List Char) × List (List Char) × Int) (d : List Char) :
    List (List Char) × List (List Char) × Int :=
  let docs := st.1
  let current := st.2.1
  let total := st.2.2
  let dLen : Int := d.length
  let dct :=
    if total + dLen + (if current ≠ [] then sepLen else 0) > cs then
      if current ≠ [] then
        let docs :=
          match joinDocs sep current with
          | some doc => docs ++ [doc]
          | none => docs
        let ct := popOverlap cs co sepLen dLen current total
        (docs, ct.1, ct.2)
      else (docs, current, total)
    else (docs, current, total)
  let current := dct.2.1 ++ [d]
  let total := dct.2.2 + dLen + (if 1 < current.length then sepLen else 0)
  (dct.1, current, total)

/-- `_merge_splits(splits, separator)`. -/
def mergeSplits (cs co : Int) (sep : List Char) (splits : List (List Char)) :
    List (List Char) :=
  let st := splits.foldl (mergeStep cs co (sep.length : Int) sep) ([], [], 0)
  match joinDocs sep st.2.1 with
  | some doc => st.1 ++ [doc]
  | none => st.1

/-- Separator selection at the head of `_split_text`: the first listed
separator occurring in the text wins (an empty separator wins outright),
with the remaining separators kept for recursion; if none occurs, the
last separator is used with no recursion separators. -/
def pickSepGo (dflt : List Char) : List (List Char) → List Char →
    List Char × List (List Char)
  | [], _ => (dflt, [])
  | s :: rest, text =>
    if s = [] then ([], [])
    else if subOccursL s text then (s, rest)
    else pickSepGo dflt rest text

def pickSep (seps : List (List Char)) (text : List Char) :
    List Char × List (List Char) :=
  pickSepGo (seps.getLastD []) seps text

/-- `_split_text(text, separators)`: split by the chosen separator, merge
runs of short splits (with merge separator `""` since
`keep_separator=True`), and recurse on over-long splits with the remaining
separators.  The recursion depth is bounded by the number of separators,
which the fuel argument is initialised to. -/
def splitTextGo (cs co : Int) : Nat → List (List Char) → List Char →
    List (List Char)
  | 0, _, text => [text]
  | fuel + 1, seps, text =>
    let sn := pickSep seps text
    let sep := sn.1
    let newSeps := sn.2
    let splits :=
      if sep = [] then (text.map (fun c => [c])).filter (fun p => p ≠ [])
      else splitKeepSep sep text
    let step := fun (st : List (List Char) × List (List Char)) (s : List Char) =>
      if (s.length : Int) < cs then (st.1, st.2 ++ [s])
      else
        let finals := if st.2 ≠ [] then st.1 ++ mergeSplits cs co [] st.2 else st.1
        let finals :=
          if newSeps = [] then finals ++ [s]
          else finals ++ splitTextGo cs co fuel newSeps s
        (finals, [])
    let fg := splits.foldl step ([], [])
    if fg.2 ≠ [] then fg.1 ++ mergeSplits cs co [] fg.2 else fg.1

/-- The 16 separators `process_remaining_text` configures. -/
def chunker_separators : List (List Char) :=
  ["\n\n\n", "\n\n", "\n", ". ", "? ", "! ", "; ", ": ", " - ", " | ", " • ",
   " ▪ ", " ▫ ", " ○ ", " ● ", " "].map String.toList

/-- `RecursiveCharacterTextSplitter(chunk_size=800, chunk_overlap=150,
separators=chunker_separators).split_text`. -/
def split_text_recursive (text : List Char) : List (List Char) :=
  splitTextGo 800 150 chunker_separators.length chunker_separators text

/-- Model of `process_remaining_text(text, clause_chunks)`: remove the
extracted clauses, split the remainder, keep stripped chunks of at least
50 characters. -/
def process_remaining_text (text : List Char) (clause_chunks : List (List Char)) :
    List (List Char) :=
  let remaining_text := clause_chunks.foldl (fun t c => replaceL c [] t) text
  let chunks := split_text_recursive remaining_text
  (chunks.map pyStripL).filter (fun c => 50 ≤ c.length)

/-- Model of `deduplicate_chunks`, keyed: Python deduplicates via
`hash(chunk.lower())` held in a `set`; the hash is modelled as an
arbitrary key function `f` applied to the lowercased chunk, so that
hash-seed independence (absence of collisions = injectivity) is
expressible.  Membership in the seen-set is key equality. -/
def dedupKeyedGo {κ : Type} [DecidableEq κ] (f : List Char → κ) :
    List κ → List (List Char) → List (List Char)
  | _, [] => []
  | seen, c :: rest =>
    let k := f (lowerL c)
    if k ∈ seen then dedupKeyedGo f seen rest
    else c :: dedupKeyedGo f (k :: seen) rest

def deduplicate_chunks {κ : Type} [DecidableEq κ] (f : List Char → κ)
    (chunks : List (List Char)) : List (List Char) :=
  dedupKeyedGo f [] chunks

/-- Model of `get_text_chunks(text)` with the dedup hash as a parameter. -/
def get_text_chunksKeyed {κ : Type} [DecidableEq κ] (f : List Char → κ)
    (text : String) : List String :=
  let tl := text.toList
  if tl.length < 1000 then [text]
  else
    let clause_chunks := extract_policy_clauses tl
    let remaining_chunks := process_remaining_text tl clause_chunks
    let all_chunks := clause_chunks ++ remaining_chunks
    let processed_chunks := deduplicate_chunks f all_chunks
    (processed_chunks.take 80).map List.asString

/-- `get_text_chunks` with the collision-free reference key (the lowercased
chunk itself), the behaviour of Python's hash-based dedup in the absence
of hash collisions. -/
def get_text_chunks (text : String) : List String :=
  get_text_chunksKeyed (fun l => l) text

/-- The coverage property of claim C9: every portion (substring) of the
input text is contained in at least one returned chunk. -/
def chunks_cover (chunks : List String) (text : String) : Prop :=
  ∀ sub : String, subOccursS sub text = true → ∃ c ∈ chunks, subOccursS sub c = true

/-- A 1000-character document: a "Coverage …." clause followed by the
residual text " tiny", whose stripped split chunk ("tiny") is shorter than
the chunker's 50-character minimum and is therefore dropped. -/
def c9_text : String :=
  ("Coverage ".toList ++ List.replicate 985 'x' ++ ('.' :: " tiny".toList)).asString

/-- The single chunk `get_text_chunks` returns for `c9_text`. -/
def c9_clause : String :=
  ("Coverage ".toList ++ List.replicate 985 'x' ++ ['.']).asString

/-! ### Theorems about the validator -/

/-- Claim C5: if the validator's LLM backend call fails (raises), then
`validate_answer(context, answer, question)` returns `(True, answer)` —
the answer is treated as valid and returned unchanged (fail-open). -/
theorem validator_fail_open (context answer question : String) :
    validate_answer (.error ()) context answer question = (true, answer) := rfl

/-- Claim C6, counterexample: two validator responses that both judge the
answer unsupported lead `validate_answer` to two different final answers
(the LLM-supplied corrected answer in one run, the original answer in the
other), so there is no fixed "information not available" string substituted
for every unsupported answer. -/
theorem validator_no_fixed_unsupported_string_ce :
    validate_answer
        (.ok "SUPPORTED: NO\nCONFIDENCE: 0.9\nREASONING: r\nCORRECTED_ANSWER: Alpha")
        "ctx" "Beta" "q" = (false, "Alpha")
    ∧ validate_answer (.ok "SUPPORTED: NO\nCONFIDENCE: 0.9") "ctx" "Gamma" "q"
        = (false, "Gamma")
    ∧ ("Alpha" : String) ≠ "Gamma" := by
  refine ⟨by decide, by decide, by decide⟩

/-- Claim C6, amended: whenever the validator judges the generated answer not
valid, `validate_answer` returns, as the final answer, the validator's
`CORRECTED_ANSWER` if one was supplied, and otherwise the original answer
unchanged — not a fixed "information not available" string. -/
theorem validator_unsupported_returns_corrected_or_original
    (raw context answer question : String)
    (h : (validate_answer (.ok raw) context answer question).1 = false) :
    (validate_answer (.ok raw) context answer question).2 =
      (if (parse_validation_result (pyStripL raw.toList)).corrected_answer ≠ [] then
        (parse_validation_result (pyStripL raw.toList)).corrected_answer.asString
      else answer) := by
  unfold validate_answer validate_decision at h ⊢
  split at h
  next =>
    simp at h
  next cf hcf =>
    injection hcf with e
    subst e
    split at h
    next =>
      simp at h
    next =>
      split at h
      next hvalid =>
        simp at h
      next hvalid =>
        rw [if_neg hvalid]

/-- Witness for `validator_unsupported_returns_corrected_or_original` at a
concrete unsupported run. -/
theorem validator_unsupported_returns_corrected_or_original_witness :
    (validate_answer
        (.ok "SUPPORTED: NO\nCONFIDENCE: 0.9\nREASONING: r\nCORRECTED_ANSWER: Alpha")
        "ctx" "Beta" "q").2 =
      (if (parse_validation_result (pyStripL
            ("SUPPORTED: NO\nCONFIDENCE: 0.9\nREASONING: r\nCORRECTED_ANSWER: Alpha").toList)).corrected_answer
          ≠ [] then
        (parse_validation_result (pyStripL
            ("SUPPORTED: NO\nCONFIDENCE: 0.9\nREASONING: r\nCORRECTED_ANSWER: Alpha").toList)).corrected_answer.asString
      else "Beta") :=
  validator_unsupported_returns_corrected_or_original
    "SUPPORTED: NO\nCONFIDENCE: 0.9\nREASONING: r\nCORRECTED_ANSWER: Alpha"
    "ctx" "Beta" "q" (by decide)

/-! ### Theorems about the reranker -/

/-- Claim C3, counterexample: with a failing scoring backend,
`rerank_chunks` returns the first `top_k` candidates in input order
(`chunks[:top_k]`), which differs from what the keyword-overlap heuristic
(`rerank_chunks_simple`) would return on the same input — so the failure
fallback is not the keyword-overlap heuristic. -/
theorem reranker_fallback_not_keyword_heuristic_ce :
    rerank_chunks ["zzz", "sum sum"] "sum" 1 (.error ()) (.error ()) = ["zzz"]
    ∧ rerank_chunks_simple ["zzz", "sum sum"] "sum" 1 = ["sum sum"]
    ∧ (["zzz"] : List String) ≠ ["sum sum"] :=
  ⟨by decide, by decide, by decide⟩

/-- Claim C3, amended: if the reranker's scoring backend raises or returns a
malformed or incomplete score set — the call raises, the response is not
decodable JSON, decodes to a non-list or a wrong-count list, contains
non-numeric entries, or the confidence stage raises / is undecodable /
yields non-numeric entries (every failure case of `scoring_failed`) —
then `rerank_chunks(candidates, question, top_k)` does not raise; it falls
back to returning the first `top_k` candidates in their original order
(positional truncation, not a keyword-overlap heuristic), which is
non-empty for non-empty candidates (and positive `top_k`) and has length
at most `top_k`. -/
theorem reranker_failure_truncates (chunks : List String) (query : String)
    (top_k : Nat) (relevanceCall confidenceCall : Except Unit (Option PyJson))
    (hfail : scoring_failed chunks.length relevanceCall confidenceCall = true)
    (hne : chunks ≠ []) (hk : 0 < top_k) :
    rerank_chunks chunks query top_k relevanceCall confidenceCall = chunks.take top_k
    ∧ rerank_chunks chunks query top_k relevanceCall confidenceCall ≠ []
    ∧ (rerank_chunks chunks query top_k relevanceCall confidenceCall).length ≤ top_k := by
  have hemp : ¬ (chunks.isEmpty = true) := by simp [List.isEmpty_iff, hne]
  have hexp : rerank_chunks chunks query top_k relevanceCall confidenceCall
      = chunks.take top_k := by
    unfold rerank_chunks
    rw [if_neg hemp]
    split
    · rfl
    · rfl
    next scoresJson =>
      split
      next scores =>
        split
        next => rfl
        next hlen =>
          split
          · rfl
          · rfl
          next confJson =>
            simp only [scoring_failed, if_neg hlen] at hfail
            split
            next csList =>
              cases hs : allNums scores with
              | none => simp only [hs]
              | some rels =>
                simp only [hs] at hfail
                cases hc : allNums (if csList.length ≠ chunks.length then
                    List.replicate chunks.length (PyJson.num (7/10)) else csList) with
                | none => simp only [hc]
                | some confs =>
                  rw [hc] at hfail
                  simp at hfail
            next hnotarr =>
              cases confJson with
              | arr cs => exact absurd rfl (hnotarr cs)
              | num q =>
                simp only at hfail
                cases hs : allNums scores with
                | none => simp only [hs]
                | some rels =>
                  simp only [hs] at hfail
                  cases hc : allNums (List.replicate chunks.length
                      (PyJson.num (7/10)) : List PyJson) with
                  | none => simp only [hc]
                  | some confs =>
                    rw [hc] at hfail
                    simp at hfail
              | str s =>
                simp only at hfail
                cases hs : allNums scores with
                | none => simp only [hs]
                | some rels =>
                  simp only [hs] at hfail
                  cases hc : allNums (List.replicate chunks.length
                      (PyJson.num (7/10)) : List PyJson) with
                  | none => simp only [hc]
                  | some confs =>
                    rw [hc] at hfail
                    simp at hfail
              | obj =>
                simp only at hfail
                cases hs : allNums scores with
                | none => simp only [hs]
                | some rels =>
                  simp only [hs] at hfail
                  cases hc : allNums (List.replicate chunks.length
                      (PyJson.num (7/10)) : List PyJson) with
                  | none => simp only [hc]
                  | some confs =>
                    rw [hc] at hfail
                    simp at hfail
      next => rfl
  refine ⟨hexp, ?_, ?_⟩
  · rw [hexp]
    simp [List.take_eq_nil_iff, hne]
    omega
  · rw [hexp]
    simp [List.length_take]

/-- Witness for `reranker_failure_truncates` at a concrete malformed score
set: the relevance response parses to a list of the wrong count. -/
theorem reranker_failure_truncates_witness :
    rerank_chunks ["a", "b"] "q" 1 (.ok (some (.arr [.num 1]))) (.ok (some .obj))
        = (["a", "b"] : List String).take 1
    ∧ rerank_chunks ["a", "b"] "q" 1 (.ok (some (.arr [.num 1]))) (.ok (some .obj)) ≠ []
    ∧ (rerank_chunks ["a", "b"] "q" 1
        (.ok (some (.arr [.num 1]))) (.ok (some .obj))).length ≤ 1 :=
  reranker_failure_truncates ["a", "b"] "q" 1
    (.ok (some (.arr [.num 1]))) (.ok (some .obj))
    (by decide) (by decide) (by decide)

theorem batches2_flatten {α : Type} : ∀ (l : List α), (batches2 l).flatten = l
  | [] => rfl
  | [_] => rfl
  | _ :: _ :: rest => by
    simp only [batches2, List.flatten_cons, List.cons_append, List.nil_append,
      List.cons.injEq, true_and]
    exact batches2_flatten rest

theorem process_query_run (questions : List String) (use_validation : Bool)
    (ctxOf : String → String) (gen : String → String → String × Option Usage)
    (validateF : String → String → String → Bool × String) :
    process_query questions use_validation ctxOf gen validateF =
      ((questions.map (get_answer_with_optimizations use_validation
          questions.length ctxOf gen validateF)).map Prod.fst,
       total_tokens_sum (questions.map (get_answer_with_optimizations
          use_validation questions.length ctxOf gen validateF))) := by
  simp only [process_query]
  split
  · rfl
  · rw [← List.map_flatten, batches2_flatten]

theorem process_query_answers (questions : List String) (use_validation : Bool)
    (ctxOf : String → String) (gen : String → String → String × Option Usage)
    (validateF : String → String → String → Bool × String) :
    (process_query questions use_validation ctxOf gen validateF).1 =
      questions.map (fun q =>
        (get_answer_with_optimizations use_validation questions.length
          ctxOf gen validateF q).1) := by
  rw [process_query_run, List.map_map]
  rfl

theorem total_tokens_sum_aux (l : List (String × Option Usage)) (acc : Nat)
    (h : ∀ r ∈ l, r.2 = none) :
    l.foldl (fun a r => a + usage_tokens r.2) acc = acc := by
  induction l generalizing acc with
  | nil => rfl
  | cons r rest ih =>
    have h1 : r.2 = none := h r (List.mem_cons_self r rest)
    simp only [List.foldl_cons, h1, usage_tokens]
    exact ih acc (fun x hx => h x (List.mem_cons_of_mem r hx))

/-! ### Theorems about the orchestrator -/

/-- Claim C1: for every request with N questions, `process_query` returns an
answers list of length N whose i-th element is the answer the per-question
pipeline computes for the i-th input question; output position is
determined by input position (`asyncio.gather` order) in both the
concurrent path (N ≤ 3) and the sequential-batch path (N > 3). -/
theorem order_preservation (use_validation : Bool) (ctxOf : String → String)
    (gen : String → String → String × Option Usage)
    (validateF : String → String → String → Bool × String)
    (questions : List String) :
    (process_query questions use_validation ctxOf gen validateF).1.length
      = questions.length
    ∧ (process_query questions use_validation ctxOf gen validateF).1 =
        questions.map (fun q =>
          (get_answer_with_optimizations use_validation questions.length
            ctxOf gen validateF q).1) := by
  refine ⟨?_, process_query_answers questions use_validation ctxOf gen validateF⟩
  rw [process_query_answers]
  simp

/-- Claim C10: with `use_validation=True`, the Validator stage runs only for
requests with at most 2 questions; for every request with 3 or more
questions the answers are the generated answers, untouched by the
validator. -/
theorem validation_gating (ctxOf : String → String)
    (gen : String → String → String × Option Usage)
    (validateF : String → String → String → Bool × String)
    (questions : List String) :
    (3 ≤ questions.length →
      (process_query questions true ctxOf gen validateF).1 =
        questions.map (fun q => (gen (ctxOf q) q).1))
    ∧ (questions.length ≤ 2 →
      (process_query questions true ctxOf gen validateF).1 =
        questions.map (fun q =>
          if ¬ (validateF (ctxOf q) (gen (ctxOf q) q).1 q).1 then
            (validateF (ctxOf q) (gen (ctxOf q) q).1 q).2
          else (gen (ctxOf q) q).1)) := by
  constructor
  · intro h3
    rw [process_query_answers]
    have hn : ¬ (questions.length ≤ 2) := by omega
    refine List.map_congr_left (fun q _ => ?_)
    simp [get_answer_with_optimizations, hn]
  · intro h2
    rw [process_query_answers]
    refine List.map_congr_left (fun q _ => ?_)
    simp only [get_answer_with_optimizations, true_and, if_pos h2]
    split
    · rfl
    · rfl

/-- Witness for `validation_gating`: with a validator that always rewrites
the answer, a 3-question request returns the generated answers unchanged
(validation skipped), while a 1-question request returns the validator's
rewritten answer. -/
theorem validation_gating_witness :
    (process_query ["a", "b", "c"] true (fun _ => "ctx") (fun _ q => (q, none))
      (fun _ a _ => (false, String.append a "!"))).1 = ["a", "b", "c"]
    ∧ (process_query ["a"] true (fun _ => "ctx") (fun _ q => (q, none))
      (fun _ a _ => (false, String.append a "!"))).1 = ["a!"] := by
  constructor
  · have h := (validation_gating (fun _ => "ctx") (fun _ q => (q, none))
      (fun _ a _ => (false, String.append a "!")) ["a", "b", "c"]).1 (by decide)
    rw [h]
    rfl
  · have h := (validation_gating (fun _ => "ctx") (fun _ q => (q, none))
      (fun _ a _ => (false, String.append a "!")) ["a"]).2 (by decide)
    rw [h]
    rfl

/-- Claim C4: if the LLM completion calls fail for a question, the answer
generator returns the safe fallback answer with a `None` usage record
(which contributes zero to the token sum) instead of propagating the
exception, and a batch processed with such failures still yields one
answer per question. -/
theorem generation_failure_fallback
    (simpleCall : String → String → Except Unit (String × Usage))
    (hfail : ∀ c q, simpleCall c q = .error ())
    (context question : String) (ctxOf : String → String)
    (validateF : String → String → String → Bool × String)
    (questions : List String) :
    get_llm_answer (.error ()) simpleCall context question
      = (llm_error_fallback_message, none)
    ∧ usage_tokens none = 0
    ∧ process_query questions false ctxOf
        (fun c q => get_llm_answer (.error ()) simpleCall c q) validateF
      = (questions.map (fun _ => llm_error_fallback_message), 0) := by
  refine ⟨?_, rfl, ?_⟩
  · simp [get_llm_answer, get_simple_llm_answer, hfail]
  · rw [process_query_run]
    have hf : ∀ q, get_answer_with_optimizations false questions.length ctxOf
        (fun c q => get_llm_answer (.error ()) simpleCall c q) validateF q
        = (llm_error_fallback_message, none) := by
      intro q
      simp [get_answer_with_optimizations, get_llm_answer, get_simple_llm_answer, hfail]
    rw [List.map_congr_left (fun q _ => hf q)]
    have h1 : (questions.map (fun _ => (llm_error_fallback_message,
        (none : Option Usage)))).map Prod.fst
        = questions.map (fun _ => llm_error_fallback_message) := by
      rw [List.map_map]
      rfl
    have h2 : total_tokens_sum (questions.map (fun _ =>
        (llm_error_fallback_message, (none : Option Usage)))) = 0 :=
      total_tokens_sum_aux _ 0 (by
        intro r hr
        rcases List.mem_map.mp hr with ⟨q, _, rfl⟩
        rfl)
    rw [h1, h2]

/-- Witness for `generation_failure_fallback` with a concrete always-failing
backend and a 4-question batch (exercising the batched path). -/
theorem generation_failure_fallback_witness :
    get_llm_answer (.error ()) (fun _ _ => .error ()) "ctx" "q"
      = (llm_error_fallback_message, none)
    ∧ usage_tokens none = 0
    ∧ process_query ["q1", "q2", "q3", "q4"] false (fun _ => "ctx")
        (fun c q => get_llm_answer (.error ()) (fun _ _ => .error ()) c q)
        (fun _ a _ => (true, a))
      = (["q1", "q2", "q3", "q4"].map (fun _ => llm_error_fallback_message), 0) :=
  generation_failure_fallback (fun _ _ => .error ()) (fun _ _ => rfl)
    "ctx" "q" (fun _ => "ctx") (fun _ a _ => (true, a)) ["q1", "q2", "q3", "q4"]

/-- Claim C2, counterexample: a request with a well-formed document URL and
an empty `questions` array passes schema validation (the model puts no
non-emptiness constraint on `questions`) and pipeline work then begins —
on an empty cache the document stage still invokes the Fetcher/Indexer
(`fetch_count` becomes 1) — and the request completes as a request
producing zero answers; it is not rejected before pipeline execution. -/
theorem empty_questions_not_rejected_ce :
    validate_hackrx_request "https://example.com/policy.pdf" [] =
      .ok ⟨"https://example.com/policy.pdf", []⟩
    ∧ (process_query_full (fun u => u) (fun _ => 0) ⟨[], 0⟩
        ⟨"https://example.com/policy.pdf", []⟩ 0 true (fun _ => "")
        (fun _ _ => ("", none)) (fun _ _ _ => (true, ""))).1.fetch_count = 1
    ∧ (process_query_full (fun u => u) (fun _ => 0) ⟨[], 0⟩
        ⟨"https://example.com/policy.pdf", []⟩ 0 true (fun _ => "")
        (fun _ _ => ("", none)) (fun _ _ _ => (true, ""))).2 = ([], 0) :=
  ⟨rfl, rfl, rfl⟩

/-- Claim C2, amended: a request whose `questions` field is an empty array
passes request validation (the schema imposes no minimum length) and the
pipeline runs it: starting from an empty cache, the document stage still
fetches, chunks and indexes the document (exactly one Fetcher/Indexer
invocation), and the request completes with an empty answers list and
zero token usage — it is never rejected before pipeline work. -/
theorem empty_questions_processed (use_validation : Bool)
    (ctxOf : String → String) (gen : String → String → String × Option Usage)
    (validateF : String → String → String → Bool × String)
    (keyOf : String → String) (fetchOf : String → Nat)
    (url : String) (now : Nat) (hurl : is_http_url url = true) :
    validate_hackrx_request url [] = .ok ⟨url, []⟩
    ∧ (process_query_full keyOf fetchOf ⟨[], 0⟩ ⟨url, []⟩ now
        use_validation ctxOf gen validateF).1.fetch_count = 1
    ∧ (process_query_full keyOf fetchOf ⟨[], 0⟩ ⟨url, []⟩ now
        use_validation ctxOf gen validateF).2 = ([], 0) := by
  refine ⟨?_, rfl, rfl⟩
  unfold validate_hackrx_request
  rw [if_pos hurl]

/-- Witness for `empty_questions_processed` at a concrete URL and concrete
document/question stages. -/
theorem empty_questions_processed_witness :
    validate_hackrx_request "https://docs.example.org/a.pdf" [] =
      .ok ⟨"https://docs.example.org/a.pdf", []⟩
    ∧ (process_query_full (fun u => u) (fun _ => 7) ⟨[], 0⟩
        ⟨"https://docs.example.org/a.pdf", []⟩ 5 false (fun _ => "ctx")
        (fun _ q => (q, none)) (fun _ a _ => (true, a))).1.fetch_count = 1
    ∧ (process_query_full (fun u => u) (fun _ => 7) ⟨[], 0⟩
        ⟨"https://docs.example.org/a.pdf", []⟩ 5 false (fun _ => "ctx")
        (fun _ q => (q, none)) (fun _ a _ => (true, a))).2 = ([], 0) :=
  empty_questions_processed false (fun _ => "ctx") (fun _ q => (q, none))
    (fun _ a _ => (true, a)) (fun u => u) (fun _ => 7)
    "https://docs.example.org/a.pdf" 5 (by decide)

/-! ### Theorems about the cache -/

/-- Claim C7, counterexample: processing the same URL twice from an empty
cache with the second request 7200 s later — past the 3600 s TTL of
`core/cache.py` — still invokes the Fetcher/Indexer only once
(`fetch_count` stays 1): the plain-dict cache used by `process_query`
never expires, so TTL expiry does not cause re-invocation as the claim
requires. -/
theorem cache_ignores_ttl_ce :
    (process_document (fun u => u) (fun _ => 0)
        (process_document (fun u => u) (fun _ => 0)
          ⟨[], 0⟩ "https://example.com/doc.pdf" 0).1
        "https://example.com/doc.pdf" 7200).1.fetch_count = 1
    ∧ core_cache_ttl_seconds < 7200 := by
  refine ⟨rfl, by decide⟩

/-- Claim C7, amended: processing the same document URL twice invokes the
Fetcher/Indexer only the first time — the second processing, at *any*
later time, returns the cached document and leaves the state (including
the invocation count) unchanged.  There is no TTL expiry and no clearing
path for this cache in the source (`core/cache.py`'s TTLCache is unused
by `process_query`), so re-invocation never happens within a process. -/
theorem cache_hit_second_time (keyOf : String → String) (fetchOf : String → Nat)
    (st : DocCacheState) (url : String) (now₁ now₂ : Nat) :
    process_document keyOf fetchOf
        (process_document keyOf fetchOf st url now₁).1 url now₂
      = process_document keyOf fetchOf st url now₁ := by
  unfold process_document
  cases h : st.cache.lookup (keyOf url) with
  | some doc =>
    simp [h]
  | none =>
    simp [h, List.lookup]

/-! ### Theorems about the chunker -/

theorem dedupKeyedGo_inj {κ₁ κ₂ : Type} [DecidableEq κ₁] [DecidableEq κ₂]
    (f : List Char → κ₁) (g : List Char → κ₂)
    (hf : Function.Injective f) (hg : Function.Injective g) :
    ∀ (l : List (List Char)) (seen : List (List Char)),
      dedupKeyedGo f (seen.map f) l = dedupKeyedGo g (seen.map g) l
  | [], _ => rfl
  | c :: rest, seen => by
    simp only [dedupKeyedGo]
    by_cases hm : lowerL c ∈ seen
    · rw [if_pos (List.mem_map_of_mem f hm), if_pos (List.mem_map_of_mem g hm)]
      exact dedupKeyedGo_inj f g hf hg rest seen
    · have hmf : ¬ f (lowerL c) ∈ seen.map f := by
        intro hx
        rcases List.mem_map.mp hx with ⟨a, ha, hfa⟩
        exact hm (hf hfa ▸ ha)
      have hmg : ¬ g (lowerL c) ∈ seen.map g := by
        intro hx
        rcases List.mem_map.mp hx with ⟨a, ha, hga⟩
        exact hm (hg hga ▸ ha)
      rw [if_neg hmf, if_neg hmg]
      have hrec := dedupKeyedGo_inj f g hf hg rest (lowerL c :: seen)
      simp only [List.map_cons] at hrec
      rw [hrec]

/-- Claim C8: chunking is deterministic — for every input text, two
invocations of `get_text_chunks` yield byte-for-byte identical chunk
sequences.  The only run-to-run variation in the source is Python's
seeded `hash` inside `deduplicate_chunks`; for any two collision-free
(injective) hash functions the output is identical, so re-invocation
(same seed or not) cannot change the chunk sequence. -/
theorem chunking_deterministic {κ₁ κ₂ : Type} [DecidableEq κ₁] [DecidableEq κ₂]
    (hash₁ : List Char → κ₁) (hash₂ : List Char → κ₂)
    (h₁ : Function.Injective hash₁) (h₂ : Function.Injective hash₂)
    (text : String) :
    get_text_chunksKeyed hash₁ text = get_text_chunksKeyed hash₂ text := by
  simp only [get_text_chunksKeyed]
  split
  · rfl
  · simp only [deduplicate_chunks]
    have h := dedupKeyedGo_inj hash₁ hash₂ h₁ h₂
      (extract_policy_clauses text.toList
        ++ process_remaining_text text.toList (extract_policy_clauses text.toList)) []
    simp only [List.map_nil] at h
    rw [h]

/-- Witness for `chunking_deterministic` with two concrete injective keys. -/
theorem chunking_deterministic_witness :
    get_text_chunksKeyed (fun l => l) "a sample policy text"
      = get_text_chunksKeyed (fun l => (l, 0)) "a sample policy text" :=
  chunking_deterministic (fun l => l) (fun l => (l, (0 : Nat)))
    (fun _ _ h => h) (fun _ _ h => congrArg Prod.fst h) "a sample policy text"

set_option maxRecDepth 400000 in
/-- Claim C9, counterexample: for the 1000-character document `c9_text`,
`get_text_chunks` returns only the extracted "Coverage …." clause; the
trailing portion `"tiny"` of the document is contained in no returned
chunk (its residual chunk is dropped by the 50-character minimum), so the
chunks do not collectively cover the document text. -/
theorem chunk_coverage_ce : ¬ chunks_cover (get_text_chunks c9_text) c9_text := by
  intro h
  obtain ⟨c, hc, hsub⟩ := h "tiny" (by rfl)
  have he : get_text_chunks c9_text = [c9_clause] := by rfl
  rw [he] at hc
  rw [List.mem_singleton.mp hc] at hsub
  have hno : subOccursS "tiny" c9_clause = false := by rfl
  rw [hno] at hsub
  exact Bool.false_ne_true hsub

/-- Claim C9, amended: coverage holds for documents shorter than 1000
characters, which `get_text_chunks` returns as the single chunk `[text]`;
for longer documents, portions whose residual chunk is dropped (stripped
length < 50, or beyond the 80-chunk cap, or removed by strip/dedup) need
not be covered, as the counterexample shows. -/
theorem chunk_coverage_short (text : String) (h : text.length < 1000) :
    get_text_chunks text = [text] ∧ chunks_cover [text] text := by
  constructor
  · unfold get_text_chunks get_text_chunksKeyed
    rw [if_pos]
    exact h
  · intro sub hs
    exact ⟨text, List.mem_singleton.mpr rfl, hs⟩

/-- Witness for `chunk_coverage_short` at a concrete short document. -/
theorem chunk_coverage_short_witness :
    get_text_chunks "The grace period is 30 days."
      = ["The grace period is 30 days."]
    ∧ chunks_cover ["The grace period is 30 days."] "The grace period is 30 days." :=
  chunk_coverage_short "The grace period is 30 days." (by decide)

end HackRx
